import Mathlib

/-!
Shallow embedding of sf-version-watch (src/main.go), a CLI tool that fetches
a release number per Salesforce instance over HTTP, compares each against an
expected version, and aggregates a pass/fail exit code.

The network is modelled as a function from URL to either a transport error or
an HTTP response; the JSON layer of the Go standard library is modelled on an
inductive JSON value type. The fan-out goroutine dispatch is modelled as the
list of messages sent to the result channel, in dispatch order (the claims
under study concern counts and contents, not arrival order).
-/

namespace SfVersionWatch

/-- Characters accepted by unicode.IsSpace in the Go standard library, which
strings.TrimSpace uses to trim: ASCII whitespace plus the Unicode space
code points of the Latin-1 and White_Space tables. -/
def isSpaceChar (c : Char) : Bool :=
  c.toNat = 9 || c.toNat = 10 || c.toNat = 11 || c.toNat = 12 || c.toNat = 13 ||
  c.toNat = 32 || c.toNat = 0x85 || c.toNat = 0xA0 || c.toNat = 0x1680 ||
  (0x2000 ≤ c.toNat && c.toNat ≤ 0x200A) ||
  c.toNat = 0x2028 || c.toNat = 0x2029 || c.toNat = 0x202F ||
  c.toNat = 0x205F || c.toNat = 0x3000

/-- Model of strings.TrimSpace on the character list of a string: drop
leading whitespace, then drop trailing whitespace. -/
def trimChars (cs : List Char) : List Char :=
  ((cs.dropWhile isSpaceChar).reverse.dropWhile isSpaceChar).reverse

/-- Model of strings.TrimSpace. -/
def trimSpace (s : String) : String :=
  ⟨trimChars s.data⟩

/-- Model of strings.Split with separator a comma: cut the character list at
every comma; the number of pieces is one more than the number of commas. -/
def splitAtCommas : List Char → List (List Char)
  | [] => [[]]
  | c :: cs =>
    if c = ',' then
      [] :: splitAtCommas cs
    else
      match splitAtCommas cs with
      | [] => [[c]]
      | piece :: rest => (c :: piece) :: rest

/-- Model of strings.Split applied to a string with a comma separator. -/
def splitComma (s : String) : List String :=
  (splitAtCommas s.data).map String.mk

/-- filterEmptyStrings from src/main.go: keep the trimmed form of each entry
whose trimmed form is nonempty, preserving order. -/
def filterEmptyStrings : List String → List String
  | [] => []
  | s :: rest =>
    let trimmed := trimSpace s
    if trimmed ≠ "" then trimmed :: filterEmptyStrings rest
    else filterEmptyStrings rest

/-- parseInstances from src/main.go: split the flag value on commas and
filter out entries that are empty after trimming. -/
def parseInstances (instanceFlag : String) : List String :=
  filterEmptyStrings (splitComma instanceFlag)

/-- JSON values, for modelling the encoding/json decoding performed by
fetchStatus. -/
inductive Json where
  | null
  | bool (b : Bool)
  | num (n : Int)
  | str (s : String)
  | arr (elems : List Json)
  | obj (fields : List (String × Json))

/-- An HTTP response body: either text that is not valid JSON, or a parsed
JSON value. -/
inductive Body where
  | malformed
  | json (value : Json)

/-- MinimalAPIResponse from src/main.go: the decode target exposing the
releaseNumber field of the status payload. -/
structure MinimalAPIResponse where
  releaseNumber : String

/-- Field lookup as encoding/json resolves an exact-match JSON key against a
struct tag: with duplicate keys the last occurrence wins. The case-folding
fallback for keys that differ only in case is not modelled; no claim
exercises it. -/
def lookupField (key : String) : List (String × Json) → Option Json
  | [] => none
  | (k, v) :: rest =>
    match lookupField key rest with
    | some w => some w
    | none => if k = key then some v else none

/-- Model of json.NewDecoder(resp.Body).Decode(&apiResponse) for the target
struct MinimalAPIResponse, following encoding/json semantics: a body that is
not valid JSON is a decode error; a JSON null leaves the struct at its zero
value; an object with no releaseNumber key leaves the field at its zero
value (the empty string) with no error; extra keys are ignored; a
releaseNumber whose value is neither a string nor null is a type error; a
top-level value that is not an object or null is a type error. -/
def decodeMinimal : Body → Except String MinimalAPIResponse
  | .malformed => .error "invalid character in body"
  | .json .null => .ok ⟨""⟩
  | .json (.obj fields) =>
    match lookupField "releaseNumber" fields with
    | none => .ok ⟨""⟩
    | some (.str s) => .ok ⟨s⟩
    | some .null => .ok ⟨""⟩
    | some _ =>
      .error "json: cannot unmarshal value into Go struct field MinimalAPIResponse.releaseNumber of type string"
  | .json _ =>
    .error "json: cannot unmarshal value into Go value of type main.MinimalAPIResponse"

/-- An HTTP response as seen through net/http: the numeric status code, the
status text (resp.Status, such as "503 Service Unavailable"), and the body. -/
structure HttpResponse where
  statusCode : Nat
  status : String
  body : Body

/-- A model of the network: what http.Get returns for each URL, either a
transport error text or a response. -/
def Net : Type :=
  String → Except String HttpResponse

/-- The URL template of fetchStatus in src/main.go. -/
def statusUrl (inst : String) : String :=
  "https://status.salesforce.com/api/instances/" ++ inst ++ "/status/preview?locale=en"

/-- The tail of fetchStatus after the status-code check: decode the body and
extract the releaseNumber field, wrapping a decode error. -/
def decodeStep (body : Body) : Except String String :=
  match decodeMinimal body with
  | .error e => .error ("failed to decode response: " ++ e)
  | .ok apiResponse => .ok apiResponse.releaseNumber

/-- fetchStatus from src/main.go: GET the status URL; a transport error and a
status code other than http.StatusOK (200) are errors; otherwise decode the
body and return the releaseNumber field. -/
def fetchStatus (net : Net) (inst : String) : Except String String :=
  match net (statusUrl inst) with
  | .error err => .error ("failed to fetch status: " ++ err)
  | .ok resp =>
    if resp.statusCode ≠ 200 then
      .error ("API returned non-OK status: " ++ resp.status)
    else
      decodeStep resp.body

/-- compareReleaseNumbers from src/main.go, as the list of messages the call
sends to the results channel: an error message on fetch failure, a mismatch
message when the fetched value differs from the expected version under string
equality, a match message when they are equal. -/
def compareReleaseNumbers (net : Net) (inst expectedVersion : String) : List String :=
  match fetchStatus net inst with
  | .error err =>
    ["Error fetching status for instance " ++ inst ++ ": " ++ err]
  | .ok releaseNumber =>
    if releaseNumber ≠ expectedVersion then
      ["Release number mismatch for instance " ++ inst ++ ": expected " ++
        expectedVersion ++ ", got " ++ releaseNumber]
    else
      ["Release number matches for instance " ++ inst ++ ": " ++ releaseNumber]

/-- The dispatch loop of main in src/main.go: one compareReleaseNumbers call
per parsed instance, all messages flowing into one stream. Dispatch order
stands in for the nondeterministic channel arrival order; the properties
proved below concern the multiset of messages, not their order. -/
def runAll (net : Net) : List String → String → List String
  | [], _ => []
  | inst :: rest, expectedVersion =>
    compareReleaseNumbers net inst expectedVersion ++ runAll net rest expectedVersion

/-- Whether needle occurs at the start of hay. -/
def beginsWith : List Char → List Char → Bool
  | [], _ => true
  | _ :: _, [] => false
  | n :: ns, h :: hs => n = h && beginsWith ns hs

/-- Whether needle occurs as a contiguous run anywhere in hay, modelling
strings.Contains. -/
def containsSub : List Char → List Char → Bool
  | [], needle => needle.isEmpty
  | h :: t, needle => beginsWith needle (h :: t) || containsSub t needle

/-- strings.Contains on strings: does s contain pat as a substring. -/
def strContains (s pat : String) : Bool :=
  containsSub s.data pat.data

/-- processResults from src/main.go: drain the result stream, flipping the
healthy verdict to false whenever a drained message contains the substring
"mismatch". -/
def processResults (results : List String) : Bool :=
  results.foldl
    (fun exitHealthy result =>
      if strContains result "mismatch" then false else exitHealthy)
    true

/-- The exit code of main in src/main.go as a function of the two flag values
and the network: exit 1 when either flag is empty, when no valid instance
survives parsing, or when processResults reports unhealthy; exit 0 otherwise.
The early exits happen before any fetch, which the theorems express as the
result being independent of the network argument on those paths. -/
def mainExitCode (net : Net) (instanceFlag versionFlag : String) : Nat :=
  if instanceFlag = "" ∨ versionFlag = "" then 1
  else
    let instances := parseInstances instanceFlag
    if instances.length = 0 then 1
    else if processResults (runAll net instances versionFlag) then 0 else 1

/-! Concrete network scenarios used by the claims. -/

/-- A JSON body carrying only a releaseNumber string field. -/
def okBody (v : String) : Body :=
  .json (.obj [("releaseNumber", .str v)])

/-- A 200 response whose body is a releaseNumber object. -/
def resp200 (v : String) : HttpResponse :=
  ⟨200, "200 OK", okBody v⟩

/-- A network on which every endpoint answers 200 with releaseNumber v. -/
def netConst (v : String) : Net :=
  fun _ => .ok (resp200 v)

/-- A network on which instance b answers 503 and every other endpoint
answers 200 with releaseNumber v1. -/
def netOneDown : Net :=
  fun url =>
    if url = statusUrl "b" then .ok ⟨503, "503 Service Unavailable", .malformed⟩
    else .ok (resp200 "v1")

/-- A network answering 201 Created with a well-formed releaseNumber body. -/
def net201 : Net :=
  fun _ => .ok ⟨201, "201 Created", okBody "v1"⟩

/-- A network answering 200 with a JSON object that has no releaseNumber
field. -/
def netMissingField : Net :=
  fun _ => .ok ⟨200, "200 OK", .json (.obj [("foo", .str "bar")])⟩

/-! Helper lemmas. -/

/-- The drain loop of processResults returns false exactly when the
accumulator was already false or some message contains "mismatch". -/
theorem foldl_verdict_false_iff (msgs : List String) (acc : Bool) :
    msgs.foldl
      (fun exitHealthy result =>
        if strContains result "mismatch" then false else exitHealthy)
      acc = false ↔
    acc = false ∨ ∃ m, m ∈ msgs ∧ strContains m "mismatch" = true := by
  induction msgs generalizing acc with
  | nil => simp
  | cons r rest ih =>
    simp only [List.foldl_cons]
    by_cases hr : strContains r "mismatch" = true
    · rw [if_pos hr, ih]
      constructor
      · intro _
        exact Or.inr ⟨r, List.mem_cons_self r rest, hr⟩
      · intro _
        exact Or.inl rfl
    · rw [if_neg hr, ih]
      constructor
      · rintro (ha | ⟨m, hm, hc⟩)
        · exact Or.inl ha
        · exact Or.inr ⟨m, List.mem_cons_of_mem r hm, hc⟩
      · rintro (ha | ⟨m, hm, hc⟩)
        · exact Or.inl ha
        · rcases List.mem_cons.mp hm with rfl | hm2
          · exact absurd hc hr
          · exact Or.inr ⟨m, hm2, hc⟩

/-- processResults reports unhealthy exactly when some drained message
contains the substring "mismatch". -/
theorem processResults_false_iff (msgs : List String) :
    processResults msgs = false ↔
      ∃ m, m ∈ msgs ∧ strContains m "mismatch" = true := by
  unfold processResults
  rw [foldl_verdict_false_iff]
  simp

/-- Every execution path of compareReleaseNumbers sends exactly one message. -/
theorem compareReleaseNumbers_length (net : Net) (inst v : String) :
    (compareReleaseNumbers net inst v).length = 1 := by
  unfold compareReleaseNumbers
  cases fetchStatus net inst with
  | error e => rfl
  | ok r =>
    by_cases h : r ≠ v
    · simp [h]
    · simp [h]

/-- Dispatching N instances puts exactly N messages on the stream. -/
theorem runAll_length (net : Net) (insts : List String) (v : String) :
    (runAll net insts v).length = insts.length := by
  induction insts with
  | nil => rfl
  | cons i rest ih =>
    simp [runAll, List.length_append, compareReleaseNumbers_length, ih,
      Nat.add_comm]

/-- The first element surviving dropWhile fails the predicate. -/
theorem dropWhile_head_not {α : Type} (p : α → Bool) :
    ∀ (l : List α) (x : α) (xs : List α), l.dropWhile p = x :: xs → p x = false := by
  intro l
  induction l with
  | nil =>
    intro x xs h
    simp [List.dropWhile] at h
  | cons a as ih =>
    intro x xs h
    rw [List.dropWhile_cons] at h
    by_cases hp : p a
    · rw [if_pos hp] at h
      exact ih x xs h
    · rw [if_neg hp] at h
      injection h with h1 _
      subst h1
      simpa using hp

/-- A nonempty trimmed string contains a non-whitespace character. -/
theorem trimChars_nonempty_nonspace (cs : List Char) (h : trimChars cs ≠ []) :
    ∃ c ∈ trimChars cs, isSpaceChar c = false := by
  unfold trimChars at h ⊢
  rcases hu : (cs.dropWhile isSpaceChar).reverse.dropWhile isSpaceChar with _ | ⟨x, v⟩
  · rw [hu] at h
    simp at h
  · refine ⟨x, ?_, dropWhile_head_not isSpaceChar _ x v hu⟩
    simp

/-- Every output of filterEmptyStrings is the trimmed form of some input,
and that trimmed form is nonempty. -/
theorem mem_filterEmptyStrings (t : String) :
    ∀ l : List String, t ∈ filterEmptyStrings l →
      ∃ s ∈ l, trimSpace s = t ∧ trimSpace s ≠ "" := by
  intro l
  induction l with
  | nil =>
    intro h
    simp [filterEmptyStrings] at h
  | cons s rest ih =>
    intro h
    simp only [filterEmptyStrings] at h
    by_cases hs : trimSpace s ≠ ""
    · rw [if_pos hs] at h
      rcases List.mem_cons.mp h with rfl | h2
      · exact ⟨s, List.mem_cons_self s rest, rfl, hs⟩
      · rcases ih h2 with ⟨u, hu, hut, hne⟩
        exact ⟨u, List.mem_cons_of_mem s hu, hut, hne⟩
    · rw [if_neg hs] at h
      rcases ih h with ⟨u, hu, hut, hne⟩
      exact ⟨u, List.mem_cons_of_mem s hu, hut, hne⟩

/-- filterEmptyStrings is trim-then-filter on the list, preserving order. -/
theorem filterEmptyStrings_eq (l : List String) :
    filterEmptyStrings l =
      (l.map trimSpace).filter (fun t => decide (t ≠ "")) := by
  induction l with
  | nil => rfl
  | cons s rest ih =>
    simp only [filterEmptyStrings, List.map_cons, List.filter_cons]
    by_cases hs : trimSpace s ≠ ""
    · rw [if_pos hs, ih]
      simp [hs]
    · rw [if_neg hs, ih]
      simp [hs]

/-- Every character of every piece produced by splitAtCommas comes from the
input. -/
theorem splitAtCommas_chars_subset :
    ∀ (cs : List Char) (p : List Char), p ∈ splitAtCommas cs → ∀ c ∈ p, c ∈ cs := by
  intro cs
  induction cs with
  | nil =>
    intro p hp c hc
    simp [splitAtCommas] at hp
    subst hp
    simp at hc
  | cons a as ih =>
    intro p hp c hc
    unfold splitAtCommas at hp
    by_cases ha : a = ','
    · rw [if_pos ha] at hp
      rcases List.mem_cons.mp hp with rfl | hp2
      · simp at hc
      · exact List.mem_cons_of_mem a (ih p hp2 c hc)
    · rw [if_neg ha] at hp
      rcases hsp : splitAtCommas as with _ | ⟨piece, rest⟩
      · rw [hsp] at hp
        simp at hp
        subst hp
        simp at hc
        rw [hc]
        exact List.mem_cons_self a as
      · rw [hsp] at hp
        rcases List.mem_cons.mp hp with rfl | hp2
        · rcases List.mem_cons.mp hc with hca | hc2
          · rw [hca]
            exact List.mem_cons_self a as
          · refine List.mem_cons_of_mem a (ih piece ?_ c hc2)
            rw [hsp]
            exact List.mem_cons_self piece rest
        · refine List.mem_cons_of_mem a (ih p ?_ c hc)
          rw [hsp]
          exact List.mem_cons_of_mem piece hp2

/-- Trimming a string of pure whitespace leaves nothing. -/
theorem trimChars_all_space (cs : List Char)
    (h : ∀ c ∈ cs, isSpaceChar c = true) : trimChars cs = [] := by
  unfold trimChars
  have h1 : cs.dropWhile isSpaceChar = [] :=
    List.dropWhile_eq_nil_iff.mpr h
  rw [h1]
  rfl

/-- filterEmptyStrings drops everything when every entry trims to empty. -/
theorem filterEmptyStrings_all_blank :
    ∀ l : List String, (∀ s ∈ l, trimSpace s = "") → filterEmptyStrings l = [] := by
  intro l
  induction l with
  | nil => intro _; rfl
  | cons s rest ih =>
    intro h
    simp only [filterEmptyStrings]
    rw [if_neg (by simpa using h s (List.mem_cons_self s rest))]
    exact ih fun u hu => h u (List.mem_cons_of_mem s hu)

/-- A whitespace-only instance flag parses to the empty instance list. -/
theorem parseInstances_all_space (s : String)
    (h : ∀ c ∈ s.data, isSpaceChar c = true) : parseInstances s = [] := by
  unfold parseInstances
  apply filterEmptyStrings_all_blank
  intro q hq
  rcases List.mem_map.mp hq with ⟨p, hp, rfl⟩
  have hall : ∀ c ∈ p, isSpaceChar c = true :=
    fun c hc => h c (splitAtCommas_chars_subset s.data p hp c hc)
  show trimSpace ⟨p⟩ = ""
  unfold trimSpace
  rw [show (String.mk p).data = p from rfl, trimChars_all_space p hall]

/-- Characterization of the exit code of main: 1 exactly when a flag is
empty, no instance survives parsing, or some result message contains the
substring "mismatch"; 0 otherwise. -/
theorem mainExitCode_eq_one_iff (net : Net) (iF vF : String) :
    mainExitCode net iF vF = 1 ↔
      (iF = "" ∨ vF = "" ∨ parseInstances iF = [] ∨
        ∃ m, m ∈ runAll net (parseInstances iF) vF ∧
          strContains m "mismatch" = true) := by
  unfold mainExitCode
  by_cases h1 : iF = "" ∨ vF = ""
  · rw [if_pos h1]
    rcases h1 with h1 | h1
    · exact iff_of_true rfl (Or.inl h1)
    · exact iff_of_true rfl (Or.inr (Or.inl h1))
  · rw [if_neg h1]
    simp only []
    rw [not_or] at h1
    by_cases h2 : (parseInstances iF).length = 0
    · rw [if_pos h2]
      exact iff_of_true rfl
        (Or.inr (Or.inr (Or.inl (List.length_eq_zero.mp h2))))
    · rw [if_neg h2]
      cases hpr : processResults (runAll net (parseInstances iF) vF) with
      | false =>
        rw [if_neg (by decide : ¬(false = true))]
        rcases (processResults_false_iff _).mp hpr with ⟨m, hm, hc⟩
        exact iff_of_true rfl (Or.inr (Or.inr (Or.inr ⟨m, hm, hc⟩)))
      | true =>
        rw [if_pos (rfl : true = true)]
        refine iff_of_false (by decide) ?_
        rintro (ha | hb | hc | ⟨m, hm, hmc⟩)
        · exact h1.1 ha
        · exact h1.2 hb
        · exact h2 (by rw [hc]; rfl)
        · have : processResults (runAll net (parseInstances iF) vF) = false :=
            (processResults_false_iff _).mpr ⟨m, hm, hmc⟩
          rw [hpr] at this
          exact absurd this (by decide)

/-- main only exits with code 0 or 1. -/
theorem mainExitCode_zero_or_one (net : Net) (iF vF : String) :
    mainExitCode net iF vF = 0 ∨ mainExitCode net iF vF = 1 := by
  unfold mainExitCode
  by_cases h1 : iF = "" ∨ vF = ""
  · rw [if_pos h1]
    exact Or.inr rfl
  · rw [if_neg h1]
    simp only []
    by_cases h2 : (parseInstances iF).length = 0
    · rw [if_pos h2]
      exact Or.inr rfl
    · rw [if_neg h2]
      by_cases h3 : processResults (runAll net (parseInstances iF) vF) = true
      · rw [if_pos h3]
        exact Or.inl rfl
      · rw [if_neg h3]
        exact Or.inr rfl

/-- When a flag is empty, main exits 1 by the first check, for every model of
the network: no fetch influences the result. -/
theorem mainExitCode_empty_flag (net : Net) (iF vF : String)
    (h : iF = "" ∨ vF = "") : mainExitCode net iF vF = 1 := by
  unfold mainExitCode
  rw [if_pos h]

/-! Claims. -/

/-- C1: the aggregate verdict of processResults is unhealthy exactly when at
least one drained message contains the substring "mismatch"; and on a run of
three instances where b answers HTTP 503 while a and c match v1, three
messages are produced, one of them the fetch-error message for b, and the
verdict stays healthy. -/
theorem c1_verdict_mismatch_substring :
    (∀ msgs : List String,
      processResults msgs = false ↔
        ∃ m, m ∈ msgs ∧ strContains m "mismatch" = true) ∧
    runAll netOneDown (parseInstances "a,b,c") "v1" =
      ["Release number matches for instance a: v1",
       "Error fetching status for instance b: API returned non-OK status: 503 Service Unavailable",
       "Release number matches for instance c: v1"] ∧
    (runAll netOneDown (parseInstances "a,b,c") "v1").length = 3 ∧
    processResults (runAll netOneDown (parseInstances "a,b,c") "v1") = true :=
  ⟨processResults_false_iff, rfl, rfl, rfl⟩

/-- C2: every execution path of compareReleaseNumbers (fetch error,
mismatch, match) sends exactly one message, so dispatching N instances puts
exactly N messages on the stream, which processResults then drains in full. -/
theorem c2_exactly_one_message_per_instance :
    (∀ (net : Net) (inst v : String),
      (compareReleaseNumbers net inst v).length = 1) ∧
    (∀ (net : Net) (insts : List String) (v : String),
      (runAll net insts v).length = insts.length) :=
  ⟨compareReleaseNumbers_length, runAll_length⟩

/-- C3: parseInstances splits on commas, trims each piece, discards pieces
that trim to empty, and keeps the remaining tokens in order; the example
input parses as stated and no output token is empty or whitespace-only. -/
theorem c3_parseInstances_clean :
    parseInstances "a, ,b,,c " = ["a", "b", "c"] ∧
    (∀ s : String,
      parseInstances s =
        ((splitComma s).map trimSpace).filter (fun t => decide (t ≠ ""))) ∧
    (∀ s t : String, t ∈ parseInstances s →
      t ≠ "" ∧ ∃ c ∈ t.data, isSpaceChar c = false) := by
  refine ⟨by decide, fun s => filterEmptyStrings_eq (splitComma s), ?_⟩
  intro s t ht
  rcases mem_filterEmptyStrings t (splitComma s) ht with ⟨p, _, hpt, hne⟩
  rw [hpt] at hne
  have hdata : t.data = trimChars p.data := by
    rw [← hpt]
    rfl
  have hnil : trimChars p.data ≠ [] := by
    intro hz
    apply hne
    have hd : t.data = [] := by rw [hdata, hz]
    cases t with
    | mk d =>
      rw [show (String.mk d).data = d from rfl] at hd
      rw [hd]
  refine ⟨hne, ?_⟩
  rw [hdata]
  exact trimChars_nonempty_nonspace p.data hnil

/-- C3 witness: the token a extracted from the example input is nonempty and
contains a non-whitespace character. -/
theorem c3_parseInstances_clean_witness :
    ("a" : String) ≠ "" ∧ ∃ c ∈ ("a" : String).data, isSpaceChar c = false :=
  c3_parseInstances_clean.2.2 "a, ,b,,c " "a" (by decide)

/-- C4: main exits 1 exactly when a flag is empty, parsing yields no usable
instance, or some result message carries the mismatch marker (the message
tag the spec defines by substring content); otherwise it exits 0; and with
an empty flag the exit code is 1 under every model of the network, i.e. no
fetch is consulted. -/
theorem c4_exit_code_policy (net : Net) (iF vF : String) :
    (mainExitCode net iF vF = 1 ↔
      (iF = "" ∨ vF = "" ∨ parseInstances iF = [] ∨
        ∃ m, m ∈ runAll net (parseInstances iF) vF ∧
          strContains m "mismatch" = true)) ∧
    (mainExitCode net iF vF = 0 ↔
      ¬(iF = "" ∨ vF = "" ∨ parseInstances iF = [] ∨
        ∃ m, m ∈ runAll net (parseInstances iF) vF ∧
          strContains m "mismatch" = true)) ∧
    ((iF = "" ∨ vF = "") → ∀ net2 : Net, mainExitCode net2 iF vF = 1) := by
  refine ⟨mainExitCode_eq_one_iff net iF vF, ?_, ?_⟩
  · rw [← mainExitCode_eq_one_iff net iF vF]
    rcases mainExitCode_zero_or_one net iF vF with h0 | h1
    · rw [h0]
      simp
    · rw [h1]
      simp
  · intro h net2
    exact mainExitCode_empty_flag net2 iF vF h

/-- C4 witness: with the version flag empty, the exit code is 1 on a healthy
network. -/
theorem c4_exit_code_policy_witness :
    mainExitCode (netConst "v1") "a" "" = 1 :=
  (c4_exit_code_policy (netConst "v1") "a" "").2.2 (Or.inr rfl) (netConst "v1")

/-- C5 counterexample: a 201 Created response, a 2xx success, is rejected
with a status error by fetchStatus instead of being decoded, although its
body decodes to v1. -/
theorem c5_two_xx_counterexample :
    (200 ≤ 201 ∧ 201 < 300) ∧
    net201 (statusUrl "na1") = .ok ⟨201, "201 Created", okBody "v1"⟩ ∧
    decodeStep (okBody "v1") = .ok "v1" ∧
    fetchStatus net201 "na1" = .error "API returned non-OK status: 201 Created" :=
  ⟨⟨by decide, by decide⟩, rfl, rfl, rfl⟩

/-- C5 amended: fetchStatus treats every status code other than exactly 200
(http.StatusOK) as an error carrying the HTTP status text, and proceeds to
decode the body only on status 200. -/
theorem c5_only_200_decodes (net : Net) (inst : String) (resp : HttpResponse)
    (h : net (statusUrl inst) = .ok resp) :
    (resp.statusCode ≠ 200 →
      fetchStatus net inst = .error ("API returned non-OK status: " ++ resp.status)) ∧
    (resp.statusCode = 200 → fetchStatus net inst = decodeStep resp.body) := by
  constructor
  · intro hne
    simp only [fetchStatus, h]
    rw [if_pos hne]
  · intro he
    simp only [fetchStatus, h]
    rw [if_neg (fun hne => hne he)]

/-- C5 witness: applying the amended statement to the 201 network. -/
theorem c5_only_200_decodes_witness :
    fetchStatus net201 "na1" = .error ("API returned non-OK status: " ++ "201 Created") :=
  (c5_only_200_decodes net201 "na1" ⟨201, "201 Created", okBody "v1"⟩ rfl).1
    (by decide)

/-- C6 counterexample: a 200 response whose JSON object lacks the
releaseNumber field is not a decode error; fetchStatus returns the empty
string, the zero value of the field. -/
theorem c6_missing_field_counterexample :
    netMissingField (statusUrl "na1") =
      .ok ⟨200, "200 OK", .json (.obj [("foo", .str "bar")])⟩ ∧
    fetchStatus netMissingField "na1" = .ok "" :=
  ⟨rfl, rfl⟩

/-- C6 amended: extra fields are ignored when a string releaseNumber is
present; a body that is not valid JSON is a decode error; an object with no
releaseNumber field decodes without error to the zero value, the empty
string; a releaseNumber of non-string non-null type is a decode error. -/
theorem c6_decode_tolerance :
    (∀ (fields : List (String × Json)) (v : String),
      lookupField "releaseNumber" fields = some (.str v) →
      decodeMinimal (.json (.obj fields)) = .ok ⟨v⟩) ∧
    decodeMinimal .malformed = .error "invalid character in body" ∧
    (∀ fields : List (String × Json),
      lookupField "releaseNumber" fields = none →
      decodeMinimal (.json (.obj fields)) = .ok ⟨""⟩) ∧
    (∀ (fields : List (String × Json)) (j : Json),
      lookupField "releaseNumber" fields = some j →
      (∀ s, j ≠ .str s) → j ≠ .null →
      ∃ e, decodeMinimal (.json (.obj fields)) = .error e) := by
  refine ⟨?_, rfl, ?_, ?_⟩
  · intro fields v h
    simp only [decodeMinimal, h]
  · intro fields h
    simp only [decodeMinimal, h]
  · intro fields j h hs hn
    simp only [decodeMinimal, h]
    cases j with
    | null => exact absurd rfl hn
    | str s => exact absurd rfl (hs s)
    | bool b => exact ⟨_, rfl⟩
    | num n => exact ⟨_, rfl⟩
    | arr elems => exact ⟨_, rfl⟩
    | obj fs => exact ⟨_, rfl⟩

/-- C6 witness: an object carrying an extra field alongside a string
releaseNumber decodes to that value. -/
theorem c6_decode_tolerance_witness :
    decodeMinimal (.json (.obj [("foo", .str "bar"), ("releaseNumber", .str "v1")])) =
      .ok ⟨"v1"⟩ :=
  c6_decode_tolerance.1 [("foo", .str "bar"), ("releaseNumber", .str "v1")] "v1" rfl

/-- C7: compareReleaseNumbers embeds the instance and error text in the
fetch-error message, compares by exact string equality on success, and
produces the mismatch message with expected and actual values on inequality
and the match message with the value on equality. -/
theorem c7_comparator_messages (net : Net) (inst v : String) :
    (∀ e, fetchStatus net inst = .error e →
      compareReleaseNumbers net inst v =
        ["Error fetching status for instance " ++ inst ++ ": " ++ e]) ∧
    (∀ r, fetchStatus net inst = .ok r → r ≠ v →
      compareReleaseNumbers net inst v =
        ["Release number mismatch for instance " ++ inst ++ ": expected " ++
          v ++ ", got " ++ r]) ∧
    (∀ r, fetchStatus net inst = .ok r → r = v →
      compareReleaseNumbers net inst v =
        ["Release number matches for instance " ++ inst ++ ": " ++ r]) := by
  refine ⟨?_, ?_, ?_⟩
  · intro e h
    simp only [compareReleaseNumbers, h]
  · intro r h hne
    simp only [compareReleaseNumbers, h]
    rw [if_pos hne]
  · intro r h he
    simp only [compareReleaseNumbers, h]
    rw [if_neg (fun hne => hne he)]

/-- C7 witness: on a healthy network the match message is produced. -/
theorem c7_comparator_messages_witness :
    compareReleaseNumbers (netConst "v1") "na1" "v1" =
      ["Release number matches for instance " ++ "na1" ++ ": " ++ "v1"] :=
  (c7_comparator_messages (netConst "v1") "na1" "v1").2.2 "v1" rfl rfl

/-- C8: round trip through the Fetcher: an endpoint answering HTTP 200 with
a JSON body whose releaseNumber is v1 makes fetchStatus return exactly ok
v1. -/
theorem c8_fetch_round_trip :
    netConst "v1" (statusUrl "na1") =
      .ok ⟨200, "200 OK", .json (.obj [("releaseNumber", .str "v1")])⟩ ∧
    fetchStatus (netConst "v1") "na1" = .ok "v1" :=
  ⟨rfl, rfl⟩

/-- C9: an invocation on which every fetch succeeds and every fetched
version equals the expected one can still exit 1: the instance name
mismatch1 makes its own match message contain the substring "mismatch", so
processResults flags the run unhealthy. -/
theorem c9_match_message_can_trip_verdict :
    parseInstances "mismatch1" = ["mismatch1"] ∧
    fetchStatus (netConst "v1") "mismatch1" = .ok "v1" ∧
    runAll (netConst "v1") (parseInstances "mismatch1") "v1" =
      ["Release number matches for instance mismatch1: v1"] ∧
    strContains "Release number matches for instance mismatch1: v1" "mismatch" = true ∧
    mainExitCode (netConst "v1") "mismatch1" "v1" = 1 :=
  ⟨by decide, rfl, rfl, by decide, by decide⟩

/-- C10: flag validation compares against the literal empty string without
trimming: a whitespace-only instance flag passes the first check, yields
zero parsed instances, and exits 1 under every network model, while a
whitespace-only version flag passes validation and is compared literally,
matching a fetched version of one space and mismatching v1. -/
theorem c10_no_trim_in_validation :
    (∀ (net net2 : Net) (iF vF : String),
      iF ≠ "" → (∀ c ∈ iF.data, isSpaceChar c = true) →
      parseInstances iF = [] ∧
      mainExitCode net iF vF = 1 ∧
      mainExitCode net iF vF = mainExitCode net2 iF vF) ∧
    mainExitCode (netConst " ") "a" " " = 0 ∧
    mainExitCode (netConst "v1") "a" " " = 1 := by
  refine ⟨?_, by decide, by decide⟩
  intro net net2 iF vF _ hsp
  have hpi : parseInstances iF = [] := parseInstances_all_space iF hsp
  have hcode : ∀ n : Net, mainExitCode n iF vF = 1 := by
    intro n
    unfold mainExitCode
    by_cases h1 : iF = "" ∨ vF = ""
    · rw [if_pos h1]
    · rw [if_neg h1]
      simp only []
      rw [if_pos (by rw [hpi]; rfl)]
  exact ⟨hpi, hcode net, by rw [hcode net, hcode net2]⟩

/-- C10 witness: a single-space instance flag with a nonempty version flag
exits 1 on two different network models alike. -/
theorem c10_no_trim_in_validation_witness :
    parseInstances " " = [] ∧
    mainExitCode (netConst "v1") " " "v1" = 1 ∧
    mainExitCode (netConst "v1") " " "v1" = mainExitCode (netConst " ") " " "v1" :=
  c10_no_trim_in_validation.1 (netConst "v1") (netConst " ") " " "v1"
    (by decide) (by decide)

end SfVersionWatch
